import Mathlib

/-!
# cudareflect driver and shader-source assembly

A shallow embedding of `cudareflect/main.cc` (argument parsing, image
marshalling, the fixed sequence of kernel calls) and of `shaders.cc`
(assembly of the shader source text, compilation and linking calls).

External calls (getopt, the EXR reader and writer, the CUDA kernels, the GL
entry points) are not part of the sources; they appear as inputs (what they
deliver) or as events of a trace (that they were called, and with what).
-/

namespace Cudareflect

/-! ## Argument parsing (`main.cc`, lines 21-84) -/

/-- The usage line, `ARG_HELP`. -/
def ARG_HELP : String := "./reflectance [mode] -f in_file -p out_file_prefix"

/-- The struct `Args`: `mode` defaults to the character 0, both C strings
default to the null pointer (`none`). -/
structure Args where
  mode : Char
  file_in : Option String
  file_out_prefix : Option String
  deriving DecidableEq, Repr

/-- The default-initialised `Args arg;`. -/
def Args.init : Args := ⟨Char.ofNat 0, none, none⟩

/-- The member function `Args::validate`. -/
def Args.validate (a : Args) : Bool :=
  if a.mode = Char.ofNat 0 then false
  else if (a.mode = 'a' || a.mode = 'i' || a.mode = 'r') && a.file_in.isNone then false
  else a.file_out_prefix.isSome

/-- One result of a call to `getopt`: the returned int `c` and the value the
global `optarg` holds at that moment. -/
structure GetoptResult where
  c : Int
  optarg : Option String
  deriving DecidableEq, Repr

/-- The int value of a character literal used as a `case` label. -/
def code (ch : Char) : Int := (ch.toNat : Int)

/-- How `parseArgs` ends: it returns an `Args`, or it calls `exit(status)`
after writing `err` to standard error. -/
inductive Outcome where
  | returned (a : Args)
  | exited (status : Int) (err : String)
  deriving DecidableEq, Repr

/-- The effect of one pass through the `switch (c)`: either the loop goes on
with an updated `arg`, or the process exits. -/
inductive Step where
  | next (a : Args)
  | stop (status : Int) (err : String)
  deriving DecidableEq, Repr

/-- The `switch (c)` of `parseArgs`. -/
def switchStep (arg : Args) (r : GetoptResult) : Step :=
  if r.c = code 'a' then .next { arg with mode := 'a' }
  else if r.c = code 'i' then .next { arg with mode := 'i' }
  else if r.c = code 'r' then .next { arg with mode := 'r' }
  else if r.c = code 'o' then .next { arg with mode := 'o' }
  else if r.c = code 'f' then .next { arg with file_in := r.optarg }
  else if r.c = code 'p' then .next { arg with file_out_prefix := r.optarg }
  else if r.c = code '?' then .stop 0 (ARG_HELP ++ "\n")
  else .stop 1 (ARG_HELP ++ "\n")

/-- The code after the loop: `if (!arg.validate()) { ...; exit(1); } return arg;`. -/
def finish (arg : Args) : Outcome :=
  if !arg.validate then .exited 1 (ARG_HELP ++ "\n") else .returned arg

/-- The `while ((c = getopt(...)) != -1)` loop, run on the results getopt
delivers one after the other; the end of the list stands for the final -1. -/
def parseLoop (arg : Args) : List GetoptResult → Outcome
  | [] => finish arg
  | r :: rs =>
    if r.c = -1 then finish arg
    else match switchStep arg r with
      | .next a => parseLoop a rs
      | .stop status err => .exited status err

/-- The function `parseArgs`, on the sequence of getopt results. -/
def parseArgs (rs : List GetoptResult) : Outcome := parseLoop Args.init rs

/-- The option characters of the option string `"airof:p:"`. -/
def recognised (c : Int) : Bool :=
  c = code 'a' || c = code 'i' || c = code 'r' || c = code 'o' || c = code 'f' || c = code 'p'

/-- The `Args` accumulated by the assignments of the `switch` over a sequence
of results (an exiting result leaves it unchanged). -/
def accumulate (arg : Args) (rs : List GetoptResult) : Args :=
  rs.foldl (fun a r => match switchStep a r with | .next b => b | .stop _ _ => a) arg

/-! ### The library function getopt

`getopt` is the C library's. On the option string of `parseArgs`,
`"airof:p:"` (no leading colon), an option character that is not in the
string, and an option that needs an argument and has none, both make it return
`'?'`. Implementations differ on arguments that are not options: POSIX stops
scanning at the first one, glibc (unless `POSIXLY_CORRECT` is set) skips it and
goes on; the flag `permute` selects the second behaviour. -/

/-- The results `getopt` delivers for the characters `cs` of one option
cluster (an argument without its leading `-`), where `nxt` is the argument
that follows, if any; the flag tells whether that argument was taken as the
value of `-f` or `-p`. -/
def getoptCluster : List Char → Option String → List GetoptResult × Bool
  | [], _ => ([], false)
  | c :: cs, nxt =>
    if c = 'a' ∨ c = 'i' ∨ c = 'r' ∨ c = 'o' then
      (⟨code c, none⟩ :: (getoptCluster cs nxt).1, (getoptCluster cs nxt).2)
    else if c = 'f' ∨ c = 'p' then
      match cs, nxt with
      | _ :: _, _ => ([⟨code c, some (String.mk cs)⟩], false)
      | [], some v => ([⟨code c, some v⟩], true)
      | [], none => ([⟨code '?', none⟩], false)
    else (⟨code '?', none⟩ :: (getoptCluster cs nxt).1, (getoptCluster cs nxt).2)

/-- Whether getopt scans the argument as options: it starts with `-`, is not
`-` alone and is not `--`. -/
def isOptionArg (a : String) : Bool :=
  match a.data with
  | '-' :: _ :: _ => a != "--"
  | _ => false

/-- The sequence of results `getopt(argc, argv, "airof:p:")` delivers for the
arguments `argv[1..]`, up to the final -1. Scanning ends at `--`; at an
argument that is not an option it ends when `permute` is false (POSIX) and
goes on with the next argument when `permute` is true (glibc). -/
def getoptAll (permute : Bool) : List String → List GetoptResult
  | [] => []
  | [a] => if isOptionArg a then (getoptCluster a.data.tail none).1 else []
  | a :: b :: rest =>
    if isOptionArg a then
      (getoptCluster a.data.tail (some b)).1 ++
        (if (getoptCluster a.data.tail (some b)).2 then getoptAll permute rest
         else getoptAll permute (b :: rest))
    else if a = "--" then []
    else if permute then getoptAll permute (b :: rest)
    else []

/-! ## Single-precision arithmetic

`float` is IEEE 754 binary32. The values that occur in `main.cc` are
non-negative and finite, so a value is a significand `m < 2^24` and an
exponent `e`, standing for `m * 2^e`; an operation is the exact operation on
rationals followed by rounding to nearest, ties to even. The upper end of the
exponent range (overflow to infinity) is left out: every value computed in
`main.cc` is at most 1. -/

/-- A non-negative finite binary32 value `m * 2^e`. -/
structure Binary32 where
  m : Nat
  e : Int
  deriving DecidableEq, Repr

/-- Number of binary digits of `n`, by halving (`fuel` bounds the halvings). -/
def bitsAux : Nat → Nat → Nat
  | 0, _ => 0
  | fuel + 1, n => if n = 0 then 0 else bitsAux fuel (n / 2) + 1

/-- Number of binary digits of `n`. -/
def bits (n : Nat) : Nat := bitsAux n n

/-- Numerator and denominator of `p / (q * 2^e)`. -/
def scaled (p q : Nat) (e : Int) : Nat × Nat :=
  if 0 ≤ e then (p, q * 2 ^ e.toNat) else (p * 2 ^ (-e).toNat, q)

/-- The integer nearest to `P / Q`, ties to even. -/
def roundHalfEven (P Q : Nat) : Nat :=
  if 2 * (P % Q) > Q ∨ (2 * (P % Q) = Q ∧ (P / Q) % 2 = 1) then P / Q + 1 else P / Q

/-- The integer `L` with `2^L ≤ p/q < 2^(L+1)`, for `p, q > 0`. -/
def ilog2 (p q : Nat) : Int :=
  let L : Int := (bits p : Int) - (bits q : Int)
  if (scaled p q L).1 ≥ (scaled p q L).2 then L else L - 1

/-- The binary32 value nearest to the rational `p / q` (ties to even), with
gradual underflow below `2^-126`. -/
def Binary32.ofRat (p q : Nat) : Binary32 :=
  if p = 0 then ⟨0, -149⟩ else
  let e : Int := max (ilog2 p q - 23) (-149)
  let m := roundHalfEven (scaled p q e).1 (scaled p q e).2
  if m = 2 ^ 24 then ⟨2 ^ 23, e + 1⟩ else ⟨m, e⟩

/-- Numerator of the exact value. -/
def Binary32.num (x : Binary32) : Nat := if 0 ≤ x.e then x.m * 2 ^ x.e.toNat else x.m

/-- Denominator of the exact value. -/
def Binary32.den (x : Binary32) : Nat := if 0 ≤ x.e then 1 else 2 ^ (-x.e).toNat

/-- Conversion of a non-negative integer to `float`. -/
def Binary32.ofNat (n : Nat) : Binary32 := Binary32.ofRat n 1

/-- The `float` quotient `x / y`. -/
def Binary32.div (x y : Binary32) : Binary32 := Binary32.ofRat (x.num * y.den) (x.den * y.num)

/-- The `float` product `x * y`. -/
def Binary32.mul (x y : Binary32) : Binary32 := Binary32.ofRat (x.num * y.num) (x.den * y.den)

/-- What `stream << std::fixed << std::setprecision(prec) << x` writes: the
exact value rounded to `prec` decimals. -/
def Binary32.fixed (prec : Nat) (x : Binary32) : String :=
  let N := roundHalfEven (x.num * 10 ^ prec) x.den
  let frac := toString (N % 10 ^ prec)
  if prec = 0 then toString N
  else toString (N / 10 ^ prec) ++ "." ++ String.mk (List.replicate (prec - frac.length) '0') ++ frac

/-- The decimal `n / 10^prec` written with `prec` decimals. -/
def decimalString (prec n : Nat) : String :=
  toString (n / 10 ^ prec) ++ "." ++
    String.mk (List.replicate (prec - (toString (n % 10 ^ prec)).length) '0') ++ toString (n % 10 ^ prec)

/-! ## Image marshalling and kernel dispatch (`main.cc`, lines 86-196) -/

/-- What the driver uses of the class `EXRFile` (declared in `EXRFiles.h`):
the dimensions and the pixel accessor `getPixel4(x, y)`. -/
structure EXRFile (float4 : Type) where
  getWidth : Nat
  getHeight : Nat
  getPixel4 : Nat → Nat → float4

/-- Conversion of an integer value to `int` (32 bits, two's complement):
the value modulo 2^32 in the range from -2^31 to 2^31 - 1. -/
def toInt32 (n : Int) : Int := (n + 2147483648) % 4294967296 - 2147483648

/-- The struct `image_t`: the pixel buffer behind `im`, and the dimensions,
which are of type `int`. -/
structure image_t (float4 : Type) where
  im : List float4
  width : Int
  height : Int

/-- The member function `image_t::sz`, the `int` product `width * height`;
`none` when the product is not an `int` value (signed overflow, undefined
behaviour). -/
def image_t.sz {float4 : Type} (im : image_t float4) : Option Int :=
  if -2147483648 ≤ im.width * im.height ∧ im.width * im.height ≤ 2147483647 then
    some (im.width * im.height)
  else none

/-- Why a run stops before the end of `main`: an exception nobody catches, or
undefined behaviour. -/
inductive Halt where
  | thrown
  | undefined
  deriving DecidableEq, Repr

/-- The length of the vector `out_proc(im.sz())`. The `int` is converted to
`size_t`; a negative one becomes a size no vector can have and the constructor
throws. -/
def outProcSize {float4 : Type} (im : image_t float4) : Except Halt Nat :=
  match im.sz with
  | none => .error .undefined
  | some n => if 0 ≤ n then .ok n.toNat else .error .thrown

/-- The files as `main` finds them. `readEXR file` is the image the
constructor `EXRFile im(file)` delivers, `none` when the file cannot be read
and the constructor throws; `writeEXR file` tells whether `OEXRFile::write`
returns for that name, `false` when the file cannot be written and it throws.
Both classes are declared in `EXRFiles.h`. -/
structure Disk (float4 : Type) where
  readEXR : String → Option (EXRFile float4)
  writeEXR : String → Bool

/-- The externally visible actions of `main`, in program order: text written
to standard output, the call of the file reader, the kernel calls with their
arguments (the output buffer is given by its length), and the calls of
`OEXRFile::write` (component count of the pixel type, buffer length,
dimensions). The kernels are taken to return: the specification leaves a
kernel failure undefined. -/
inductive Event (float4 : Type) where
  | cout (s : String)
  | readEXR (file : String)
  | irradiate_ker (im : List float4) (outLen : Nat) (width height : Int)
  | map_reflectance_ker (im : List float4) (outLen : Nat) (width height : Int)
      (roughness : Binary32)
  | generate_brdf_integrate_lut_ker (width height : Int) (outLen : Nat)
  | write (file : String) (components len : Nat) (width height : Int)

/-- The events of a piece of code, and how it stopped if it did not run to
its end. -/
abbrev Partial (float4 : Type) := List (Event float4) × Option Halt

/-- Sequencing: `b` runs only when `a` ran to its end. -/
def Partial.andThen {float4 : Type} (a b : Partial float4) : Partial float4 :=
  match a.2 with
  | some _ => a
  | none => (a.1 ++ b.1, b.2)

/-- The inner loop `for (size_t j = 0; j < width; ++j)` of the marshalling
code, from a given `j` and buffer `im_proc`. -/
def marshalRow {float4 : Type} (im : EXRFile float4) (width i : Nat) (j : Nat)
    (im_proc : List float4) : List float4 :=
  if j < width then marshalRow im width i (j + 1) (im_proc ++ [im.getPixel4 j i]) else im_proc
termination_by width - j

/-- The outer loop `for (size_t i = 0; i < height; ++i)`, from a given `i`
and buffer `im_proc`. -/
def marshalRows {float4 : Type} (im : EXRFile float4) (width height : Nat) (i : Nat)
    (im_proc : List float4) : List float4 :=
  if i < height then marshalRows im width height (i + 1) (marshalRow im width i 0 im_proc)
  else im_proc
termination_by height - i

/-- The buffer `im_proc` after the marshalling loops of `main`. -/
def marshal {float4 : Type} (im : EXRFile float4) : List float4 :=
  marshalRows im im.getWidth im.getHeight 0 []

/-- The function `irradiate_im`; its first statement constructs `out_proc`,
its last is the call of `write`. -/
def irradiate_im {float4 : Type} (writeEXR : String → Bool) (im : image_t float4)
    (pfx : String) : Partial float4 :=
  match outProcSize im with
  | .error h => ([], some h)
  | .ok len =>
    let out_name := pfx ++ "_diffuse.exr"
    ([ .cout "Irradiating image...\n",
       .irradiate_ker im.im len im.width im.height,
       .cout "copying data back\n",
       .cout ("writing to: " ++ out_name ++ "\n"),
       .write out_name 3 len im.width im.height ],
     if writeEXR out_name then none else some .thrown)

/-- The function `map_refl_im`; `out_proc` is constructed before anything is
printed, the last statement is the call of `write`. -/
def map_refl_im {float4 : Type} (writeEXR : String → Bool) (im : image_t float4)
    (pfx : String) (step : Binary32) (i : Nat) : Partial float4 :=
  let roughness := Binary32.mul step (Binary32.ofNat i)
  match outProcSize im with
  | .error h => ([], some h)
  | .ok len =>
    let out_name := pfx ++ "_refl_" ++ Binary32.fixed 3 step ++ "_" ++ toString i ++ ".exr"
    ([ .cout "Mapping reflectance map...\n",
       .map_reflectance_ker im.im len im.width im.height roughness,
       .cout "copying data back\n",
       .cout ("writing to: " ++ out_name ++ "\n"),
       .write out_name 3 len im.width im.height ],
     if writeEXR out_name then none else some .thrown)

/-- The loop `for (int i = 1; i <= count; ++i) map_refl_im(imt, prefix, step, i);`
from a given `i`. -/
def reflLoop {float4 : Type} (writeEXR : String → Bool) (im : image_t float4) (pfx : String)
    (step : Binary32) (count : Nat) (i : Nat) : Partial float4 :=
  if i ≤ count then
    (map_refl_im writeEXR im pfx step i).andThen (reflLoop writeEXR im pfx step count (i + 1))
  else ([], none)
termination_by count + 1 - i

/-- The block `if (args.file_in) { ... }` of `main` followed by the
construction of `imt`: the events, and `imt`, or `none` when the constructor
`EXRFile im(args.file_in)` does not return (`readEXR` gives `none`: the file
cannot be read and the reader throws). The message "Loaded file" is printed
before the file is read. -/
def loadImage {float4 : Type} (readEXR : String → Option (EXRFile float4))
    (file_in : Option String) : List (Event float4) × Option (image_t float4) :=
  match file_in with
  | some f =>
    match readEXR f with
    | some im =>
      ([.cout ("Loaded file " ++ f ++ "\n"), .readEXR f, .cout "finished converting to float3\n"],
        some ⟨marshal im, toInt32 im.getWidth, toInt32 im.getHeight⟩)
    | none => ([.cout ("Loaded file " ++ f ++ "\n"), .readEXR f], none)
  | none => ([], some ⟨[], toInt32 0, toInt32 0⟩)

/-- The part of `main` after the construction of `imt`: the mode switch. -/
def dispatch {float4 : Type} (writeEXR : String → Bool) (imt : image_t float4) (mode : Char)
    (pfx : String) : Partial float4 :=
  if mode = 'o' then
    let res : Int := 200
    ([ .cout "generating Fresnel/Roughness/cos_v data\n",
       .cout ("writing to " ++ pfx ++ ".exr\n"),
       .generate_brdf_integrate_lut_ker res res (res * res).toNat,
       .write (pfx ++ ".exr") 2 (res * res).toNat res res ],
     if writeEXR (pfx ++ ".exr") then none else some .thrown)
  else if mode = 'r' then
    let count := 10
    let step := Binary32.div (Binary32.ofNat 1) (Binary32.ofNat count)
    reflLoop writeEXR imt pfx step count 1
  else if mode = 'i' then
    irradiate_im writeEXR imt pfx
  else if mode = 'a' then
    let count := 10
    let step := Binary32.div (Binary32.ofNat 1) (Binary32.ofNat count)
    (reflLoop writeEXR imt pfx step count 1).andThen (irradiate_im writeEXR imt pfx)
  else ([], none)

/-- The body of `main` after `parseArgs` has returned, with the prefix
(non-null once `validate` holds) as a string. -/
def mainBody {float4 : Type} (disk : Disk float4) (mode : Char)
    (file_in : Option String) (pfx : String) : Partial float4 :=
  match (loadImage disk.readEXR file_in).2 with
  | none => ((loadImage disk.readEXR file_in).1, some .thrown)
  | some imt =>
    Partial.andThen ((loadImage disk.readEXR file_in).1, none)
      (dispatch disk.writeEXR imt mode pfx)

/-- How a run of `main` ends: `parseArgs` exited; `main` ran to its end with
the given events; after the given events an exception left `main`; or after
the given events the behaviour is undefined. -/
inductive Run (float4 : Type) where
  | exited (status : Int) (err : String)
  | finished (trace : List (Event float4))
  | thrown (trace : List (Event float4))
  | undefined (trace : List (Event float4))

/-- The function `main`, on the sequence of getopt results for its command
line and the files it finds. A null prefix (excluded by `validate`) would be
undefined behaviour. -/
def main {float4 : Type} (disk : Disk float4) (rs : List GetoptResult) : Run float4 :=
  match parseArgs rs with
  | .exited status err => .exited status err
  | .returned args =>
    match args.file_out_prefix with
    | some pfx =>
      match mainBody disk args.mode args.file_in pfx with
      | (tr, none) => .finished tr
      | (tr, some .thrown) => .thrown tr
      | (tr, some .undefined) => .undefined tr
    | none => .undefined []

/-- The events that are kernel calls or file writes. -/
def Event.isKernelOrWrite {float4 : Type} : Event float4 → Bool
  | .irradiate_ker .. => true
  | .map_reflectance_ker .. => true
  | .generate_brdf_integrate_lut_ker .. => true
  | .write .. => true
  | _ => false

/-! ## Definitions used in the statements -/

/-- The combinations the specification's testable property calls accepted:
the mode is BRDF-LUT-only, or the mode requires input and both the input path
and the prefix are present. -/
def acceptedAsSpecified (a : Args) : Prop :=
  a.mode = 'o' ∨ ((a.mode = 'a' ∨ a.mode = 'i' ∨ a.mode = 'r') ∧
    a.file_in.isSome = true ∧ a.file_out_prefix.isSome = true)

/-- The modes the `switch` can leave in `arg.mode`, and the initial 0. -/
def modeSetOrZero (a : Args) : Prop :=
  a.mode = Char.ofNat 0 ∨ a.mode = 'a' ∨ a.mode = 'i' ∨ a.mode = 'r' ∨ a.mode = 'o'

/-- Row `i` of the image, in column order. -/
def pixelRow {float4 : Type} (im : EXRFile float4) (width i : Nat) : List float4 :=
  (List.range' 0 width).map (fun j => im.getPixel4 j i)

/-- A 2-wide, 3-high image whose pixel at column `x`, row `y` is the pair `(x, y)`. -/
def sampleImage : EXRFile (Nat × Nat) := ⟨2, 3, fun x y => (x, y)⟩

/-- A reader that finds the sample image under the name `in.exr` and can read
no other file. -/
def sampleReader (file : String) : Option (EXRFile (Nat × Nat)) :=
  if file = "in.exr" then some sampleImage else none

/-- An image of 46341 by 46341 pixels, one more than `int` can count. -/
def bigImage : EXRFile (Nat × Nat) := ⟨46341, 46341, fun x y => (x, y)⟩

/-- A reader that finds the big image under every name. -/
def bigReader (_file : String) : Option (EXRFile (Nat × Nat)) := some bigImage

/-- The sample image under `in.exr`; every file can be written. -/
def sampleDisk : Disk (Nat × Nat) := ⟨sampleReader, fun _ => true⟩

/-- The big image under every name; every file can be written. -/
def bigDisk : Disk (Nat × Nat) := ⟨bigReader, fun _ => true⟩

/-- The sample image under `in.exr`; no file can be written. -/
def fullDisk : Disk (Nat × Nat) := ⟨sampleReader, fun _ => false⟩

/-- The value of `step` in `main`: `1.0f / count` with `count = 10`. -/
def seriesStep : Binary32 := Binary32.div (Binary32.ofNat 1) (Binary32.ofNat 10)

/-- The roughness of step `i` of the series, as a `float`: the
single-precision product of `step` and `i`. -/
def seriesRoughness (i : Nat) : Binary32 :=
  Binary32.mul seriesStep (Binary32.ofNat i)

/-- The file name the specification gives for step `i` of the series:
`<prefix>_refl_<step>_<i>.exr`, the step with three decimals. -/
def reflName (pfx : String) (i : Nat) : String :=
  pfx ++ ("_refl_" ++ ("0.100" ++ ("_" ++ (toString i ++ ".exr"))))

/-- The kernel call and the file write of step `i` of the series, for an
image and the length of the output buffer. -/
def seriesEvents {float4 : Type} (im : image_t float4) (len : Nat) (pfx : String) (i : Nat) :
    List (Event float4) :=
  [ .map_reflectance_ker im.im len im.width im.height (seriesRoughness i),
    .write (reflName pfx i) 3 len im.width im.height ]

/-- The image as `main` hands it to the kernels when its dimensions are `int`
values. -/
def imageOf {float4 : Type} (im : EXRFile float4) : image_t float4 :=
  ⟨marshal im, (im.getWidth : Int), (im.getHeight : Int)⟩

end Cudareflect

namespace Shaders

/-! ## Shader compilation (`shaders.cc`) -/

/-- The GL entry points `shaders.cc` calls, with their arguments, and the
text it writes to standard error. -/
inductive GLCall where
  | glCreateProgram
  | glCreateShader (shaderType : Int)
  | glShaderSource (shader : Nat) (src : String)
  | glCompileShader (shader : Nat)
  | glGetShaderiv (shader : Nat) (pname : String)
  | glGetShaderInfoLog (shader : Nat)
  | glAttachShader (program shader : Nat)
  | glLinkProgram (program : Nat)
  | glDetachShader (program shader : Nat)
  | glDeleteShader (shader : Nat)
  | cerr (s : String)
  deriving DecidableEq, Repr

/-- The answers of the GL implementation, each a function of the calls made
so far: the handle a `glCreate*` call returns, whether `GL_COMPILE_STATUS` is
`GL_TRUE`, and the info log. -/
structure Driver where
  newHandle : List GLCall → Nat
  compileStatus : List GLCall → Bool
  infoLog : List GLCall → String

/-- The macro `GLSL_VERSION`: "410" under `__APPLE__`, "130" otherwise. -/
def GLSL_VERSION (apple : Bool) : String := if apple then "410" else "130"

/-- The function `createShaders`: the calls made (appended to `tr`) and the
handle returned, or the thrown int; the parameter `filename` is not used. -/
def createShaders (drv : Driver) (src : String) (shaderType : Int) (_filename : String)
    (tr : List GLCall) : List GLCall × Except Int Nat :=
  let shader := drv.newHandle tr
  let tr1 := tr ++ [.glCreateShader shaderType, .glShaderSource shader src,
    .glCompileShader shader, .glGetShaderiv shader "GL_COMPILE_STATUS"]
  if !drv.compileStatus tr1 then
    let tr2 := tr1 ++ [.glGetShaderiv shader "GL_INFO_LOG_LENGTH", .glGetShaderInfoLog shader]
    (tr2 ++ [.cerr (drv.infoLog tr2), .cerr "\nGL Compile error\n", .cerr (src ++ "\n")], .error 1)
  else (tr1, .ok shader)

/-- The contents of the string stream `shaderSrc` of `createShaderFile` once
the file contents have been appended. -/
def shaderSrc (apple : Bool) (Nlights Nmaterials : Nat) (defineflags : List String)
    (contents : String) : String :=
  let s0 := "" ++ "#version " ++ GLSL_VERSION apple ++ "\r\n"
  let s1 := s0 ++ "#extension GL_ARB_uniform_buffer_object : enable" ++ "\r\n"
  let s2 := defineflags.foldl (fun s flag => s ++ "#define " ++ flag ++ "\r\n") s1
  let s3 := s2 ++ "const int Nlights=" ++ toString Nlights ++ ";\r\n"
  let s4 := s3 ++ "const int Nmaterials=" ++ toString Nmaterials ++ ";\r\n"
  s4 ++ contents

/-- The text a `char const*` pointing at the characters of `s` stands for: a
C string ends at the first NUL character. -/
def cstr (s : String) : String :=
  String.mk (s.data.takeWhile (fun c => c != Char.ofNat 0))

/-- The function `createShaderFile`; `fs` gives, for a file that can be
opened, the characters its stream delivers (the file contents). `createShaders`
receives the pointer
`shaderSrc.str().data()`, which it hands to `glShaderSource` with a NULL
length array and prints with `std::cerr << src`; both read it as a C string. -/
def createShaderFile (fs : String → Option String) (apple : Bool) (drv : Driver)
    (file : String) (shaderType : Int) (Nlights Nmaterials : Nat) (defineflags : List String)
    (tr : List GLCall) : List GLCall × Except Int Nat :=
  match fs file with
  | some contents =>
    createShaders drv (cstr (shaderSrc apple Nlights Nmaterials defineflags contents))
      shaderType file tr
  | none => (tr, .error 1)

/-- The first loop of `compileAndLinkShader`: the calls made and the vector
`compiledShaders`, or the thrown int. -/
def compileLoop (fs : String → Option String) (apple : Bool) (drv : Driver) (mainShader : Nat)
    (Nlights NMaterials : Nat) (defineflags : List String) :
    List (String × Int) → List Nat → List GLCall → List GLCall × Except Int (List Nat)
  | [], compiledShaders, tr => (tr, .ok compiledShaders)
  | sh :: rest, compiledShaders, tr =>
    match createShaderFile fs apple drv sh.1 sh.2 Nlights NMaterials defineflags tr with
    | (tr1, .error v) => (tr1, .error v)
    | (tr1, .ok newshader) =>
      compileLoop fs apple drv mainShader Nlights NMaterials defineflags rest
        (compiledShaders ++ [newshader]) (tr1 ++ [.glAttachShader mainShader newshader])

/-- The function `compileAndLinkShader`: the calls made and the program
handle returned, or the thrown int. -/
def compileAndLinkShader (fs : String → Option String) (apple : Bool) (drv : Driver)
    (shaders : List (String × Int)) (Nlights NMaterials : Nat) (defineflags : List String) :
    List GLCall × Except Int Nat :=
  let mainShader := drv.newHandle []
  match compileLoop fs apple drv mainShader Nlights NMaterials defineflags shaders []
      [.glCreateProgram] with
  | (tr, .error v) => (tr, .error v)
  | (tr, .ok compiledShaders) =>
    (tr ++ [.glLinkProgram mainShader] ++
      compiledShaders.flatMap (fun s => [.glDetachShader mainShader s, .glDeleteShader s]),
     .ok mainShader)

/-- The shader-object compilation calls: `glCreateShader`, `glShaderSource`
and `glCompileShader`. -/
def GLCall.isCompilation : GLCall → Bool
  | .glCreateShader _ => true
  | .glShaderSource _ _ => true
  | .glCompileShader _ => true
  | _ => false

/-- The source texts handed to `glShaderSource`, in call order. -/
def sources : List GLCall → List String
  | [] => []
  | .glShaderSource _ src :: rest => src :: sources rest
  | _ :: rest => sources rest

/-- One `#define <flag>` line per flag, in the given order. -/
def defineLines : List String → String
  | [] => ""
  | flag :: flags => "#define " ++ flag ++ "\r\n" ++ defineLines flags

/-- The text the specification describes for one shader file: the version
directive, the extension directive, one `#define` line per flag, the two
constants, then the file contents. -/
def expectedSource (apple : Bool) (Nlights Nmaterials : Nat) (defineflags : List String)
    (contents : String) : String :=
  "#version " ++ GLSL_VERSION apple ++ "\r\n" ++
  ("#extension GL_ARB_uniform_buffer_object : enable\r\n" ++
  (defineLines defineflags ++
  ("const int Nlights=" ++ toString Nlights ++ ";\r\n" ++
  ("const int Nmaterials=" ++ toString Nmaterials ++ ";\r\n" ++
  contents))))

/-- The files of the list that precede the first one that cannot be opened. -/
def openedBefore (fs : String → Option String) (shaders : List (String × Int)) :
    List (String × Int) :=
  shaders.takeWhile (fun sh => (fs sh.1).isSome)

/-- A file system with the one file `a.glsl`. -/
def sampleFs (file : String) : Option String :=
  if file = "a.glsl" then some "void main();" else none

/-- A file system with the one file `nul.glsl`, whose three bytes are `a`,
NUL and `b`. -/
def nulFs (file : String) : Option String :=
  if file = "nul.glsl" then some (String.mk ['a', Char.ofNat 0, 'b']) else none

/-- The string has no NUL character. -/
def NulFree (s : String) : Prop := ∀ c ∈ s.data, c ≠ Char.ofNat 0

/-- A driver that numbers its handles by the calls made so far and compiles
every shader successfully. -/
def sampleDriver : Driver := ⟨fun tr => tr.length, fun _ => true, fun _ => ""⟩

/-- The source text `createShaderFile` assembles for an entry of the list. -/
def sourceOf (fs : String → Option String) (apple : Bool) (Nlights Nmaterials : Nat)
    (defineflags : List String) (sh : String × Int) : Option String :=
  (fs sh.1).map (fun contents => cstr (shaderSrc apple Nlights Nmaterials defineflags contents))

end Shaders

namespace Cudareflect

/-! ## Argument validation -/

/-- C1, as stated, fails: in mode 'o' without a prefix the specified
combination counts as accepted, and `validate` rejects it, with or without an
input path. -/
theorem validate_rejects_lut_mode_without_prefix :
    acceptedAsSpecified ⟨'o', none, none⟩ ∧ Args.validate ⟨'o', none, none⟩ = false ∧
    acceptedAsSpecified ⟨'o', some "in.exr", none⟩ ∧
    Args.validate ⟨'o', some "in.exr", none⟩ = false := by
  refine ⟨Or.inl rfl, by decide, Or.inl rfl, by decide⟩

/-- C1, amended: for each of the four modes, `validate` accepts exactly the
combinations where the prefix is present and either the mode is 'o' or the
input path is present. -/
theorem validate_accepts_iff (mode : Char) (file_in file_out_prefix : Option String)
    (hmode : mode = 'a' ∨ mode = 'i' ∨ mode = 'r' ∨ mode = 'o') :
    Args.validate ⟨mode, file_in, file_out_prefix⟩ = true ↔
      file_out_prefix.isSome = true ∧ (mode = 'o' ∨ file_in.isSome = true) := by
  rcases hmode with h | h | h | h <;> subst h <;>
    cases file_in <;> cases file_out_prefix <;> simp [Args.validate]

/-- Witness for C1 (amended): mode 'r' with both paths present is accepted. -/
theorem validate_accepts_iff_witness :
    Args.validate ⟨'r', some "in.exr", some "out"⟩ = true ↔
      (some "out").isSome = true ∧ ('r' = 'o' ∨ (some "in.exr").isSome = true) :=
  validate_accepts_iff 'r' (some "in.exr") (some "out") (Or.inr (Or.inr (Or.inl rfl)))

/-- C2: `validate` returns true exactly when a mode is set, the prefix is
present and, in the modes 'a', 'i' and 'r', the input path is present; in
mode 'o' too a missing prefix is rejected. -/
theorem validate_iff (a : Args) :
    (a.validate = true ↔
      (a.mode ≠ Char.ofNat 0 ∧ a.file_out_prefix.isSome = true ∧
        ((a.mode = 'a' ∨ a.mode = 'i' ∨ a.mode = 'r') → a.file_in.isSome = true))) ∧
    (∀ file_in : Option String, Args.validate ⟨'o', file_in, none⟩ = false) := by
  constructor
  · obtain ⟨mode, file_in, file_out_prefix⟩ := a
    by_cases h0 : mode = Char.ofNat 0
    · simp [Args.validate, h0]
    · by_cases hm : mode = 'a' ∨ mode = 'i' ∨ mode = 'r'
      · cases file_in <;> cases file_out_prefix <;> simp [Args.validate, h0]
        all_goals tauto
      · cases file_in <;> cases file_out_prefix <;> simp [Args.validate, h0]
        all_goals tauto
  · intro file_in
    cases file_in <;> simp [Args.validate]

/-! ## parseArgs -/

theorem switchStep_next_mode {arg a : Args} {r : GetoptResult}
    (h : switchStep arg r = .next a) (hm : modeSetOrZero arg) : modeSetOrZero a := by
  unfold switchStep at h
  unfold modeSetOrZero at *
  split_ifs at h <;> simp only [Step.next.injEq, reduceCtorEq] at h <;> subst h <;> simp [hm]

theorem switchStep_stop_zero {arg : Args} {r : GetoptResult} {err : String}
    (h : switchStep arg r = .stop 0 err) : r.c = code '?' := by
  unfold switchStep at h
  split_ifs at h with h1 h2 h3 h4 h5 h6 h7
  · exact h7
  · simp at h

theorem switchStep_stop_err {arg : Args} {r : GetoptResult} {status : Int} {err : String}
    (h : switchStep arg r = .stop status err) : err = ARG_HELP ++ "\n" := by
  unfold switchStep at h
  split_ifs at h <;> simp at h <;> exact h.2.symm

theorem switchStep_recognised {arg : Args} {r : GetoptResult} (h : recognised r.c = true) :
    ∃ a, switchStep arg r = .next a := by
  unfold recognised at h
  unfold switchStep
  simp only [Bool.or_eq_true, decide_eq_true_eq] at h
  split_ifs <;> first | exact ⟨_, rfl⟩ | (exfalso; tauto)

theorem recognised_ne_eof {c : Int} (h : recognised c = true) : c ≠ -1 := by
  intro hc
  subst hc
  revert h
  decide

theorem finish_returned {arg a : Args} (h : finish arg = .returned a) :
    a = arg ∧ arg.validate = true := by
  unfold finish at h
  cases hv : arg.validate <;> simp [hv] at h
  exact ⟨h.symm, rfl⟩

theorem parseLoop_returned (rs : List GetoptResult) :
    ∀ (arg a : Args), modeSetOrZero arg → parseLoop arg rs = .returned a →
      a.validate = true ∧ modeSetOrZero a := by
  induction rs with
  | nil =>
    intro arg a hm h
    obtain ⟨rfl, hv⟩ := finish_returned h
    exact ⟨hv, hm⟩
  | cons r rs ih =>
    intro arg a hm h
    unfold parseLoop at h
    by_cases hc : r.c = -1
    · rw [if_pos hc] at h
      obtain ⟨rfl, hv⟩ := finish_returned h
      exact ⟨hv, hm⟩
    · rw [if_neg hc] at h
      cases hs : switchStep arg r with
      | next b =>
        rw [hs] at h
        exact ih b a (switchStep_next_mode hs hm) h
      | stop status err =>
        rw [hs] at h
        simp at h

theorem parseLoop_recognised (rs : List GetoptResult) :
    ∀ arg : Args, (∀ r ∈ rs, recognised r.c = true) →
      parseLoop arg rs = finish (accumulate arg rs) := by
  induction rs with
  | nil => intro arg _; rfl
  | cons r rs ih =>
    intro arg hall
    have hr := hall r (List.mem_cons_self r rs)
    obtain ⟨b, hb⟩ := @switchStep_recognised arg r hr
    unfold parseLoop
    rw [if_neg (recognised_ne_eof hr)]
    simp only [hb, accumulate, List.foldl_cons]
    exact ih b (fun x hx => hall x (List.mem_cons_of_mem r hx))

theorem parseLoop_exit_zero (rs : List GetoptResult) :
    ∀ (arg : Args) (err : String), parseLoop arg rs = .exited 0 err →
      ∃ r ∈ rs, r.c = code '?' := by
  induction rs with
  | nil =>
    intro arg err h
    unfold parseLoop finish at h
    cases hv : arg.validate <;> simp [hv] at h
  | cons r rs ih =>
    intro arg err h
    unfold parseLoop at h
    by_cases hc : r.c = -1
    · rw [if_pos hc] at h
      unfold finish at h
      cases hv : arg.validate <;> simp [hv] at h
    · rw [if_neg hc] at h
      cases hs : switchStep arg r with
      | next b =>
        rw [hs] at h
        obtain ⟨x, hx, hq⟩ := ih b err h
        exact ⟨x, List.mem_cons_of_mem r hx, hq⟩
      | stop status e =>
        rw [hs] at h
        simp only [Outcome.exited.injEq] at h
        obtain ⟨h1, _⟩ := h
        subst h1
        exact ⟨r, List.mem_cons_self r rs, switchStep_stop_zero hs⟩

theorem validate_mode_prefix {a : Args} (hv : a.validate = true) (hm : modeSetOrZero a) :
    (a.mode = 'a' ∨ a.mode = 'i' ∨ a.mode = 'r' ∨ a.mode = 'o') ∧
      a.file_out_prefix.isSome = true := by
  unfold Args.validate at hv
  unfold modeSetOrZero at hm
  split_ifs at hv with h0 h1
  rcases hm with h | h
  · exact absurd h h0
  · exact ⟨h, hv⟩

/-- C3: for every sequence of getopt results, `parseArgs` returns only an
`Args` that satisfies `validate`, whose mode is one of 'a', 'i', 'r', 'o' and
whose prefix is present; when every result is a recognised option and the
accumulated `Args` fail `validate`, it exits with status 1 after printing the
usage line; and an exit with status 0 happens only when getopt delivered '?'. -/
theorem parseArgs_contract (rs : List GetoptResult) :
    (∀ a, parseArgs rs = .returned a →
      a.validate = true ∧ (a.mode = 'a' ∨ a.mode = 'i' ∨ a.mode = 'r' ∨ a.mode = 'o') ∧
        a.file_out_prefix.isSome = true) ∧
    ((∀ r ∈ rs, recognised r.c = true) → (accumulate Args.init rs).validate = false →
      parseArgs rs = .exited 1 (ARG_HELP ++ "\n")) ∧
    (∀ err, parseArgs rs = .exited 0 err → ∃ r ∈ rs, r.c = code '?') := by
  refine ⟨?_, ?_, ?_⟩
  · intro a h
    obtain ⟨hv, hm⟩ := parseLoop_returned rs Args.init a (Or.inl rfl) h
    exact ⟨hv, validate_mode_prefix hv hm⟩
  · intro hall hv
    unfold parseArgs
    rw [parseLoop_recognised rs Args.init hall]
    unfold finish
    simp [hv]
  · intro err h
    exact parseLoop_exit_zero rs Args.init err h

/-- Witness for C3: a complete command line for mode 'r', mode 'o' without a
prefix, and a '?' delivered by getopt. -/
theorem parseArgs_contract_witness :
    (Args.validate ⟨'r', some "in.exr", some "out"⟩ = true ∧
      (('r' : Char) = 'a' ∨ ('r' : Char) = 'i' ∨ ('r' : Char) = 'r' ∨ ('r' : Char) = 'o') ∧
      (some "out" : Option String).isSome = true) ∧
    parseArgs [⟨code 'o', none⟩] = .exited 1 (ARG_HELP ++ "\n") ∧
    (∃ r ∈ [(⟨code '?', none⟩ : GetoptResult)], r.c = code '?') :=
  ⟨(parseArgs_contract [⟨code 'r', none⟩, ⟨code 'f', some "in.exr"⟩, ⟨code 'p', some "out"⟩]).1
      ⟨'r', some "in.exr", some "out"⟩ (by decide),
   (parseArgs_contract [⟨code 'o', none⟩]).2.1 (by decide) (by decide),
   (parseArgs_contract [⟨code '?', none⟩]).2.2 (ARG_HELP ++ "\n") (by decide)⟩

/-- C4 fails on the code: for an unrecognised option (`-x`) and for an option
missing its argument (`-o -p`, `-f`), getopt delivers '?', whether or not it
permutes the arguments, and `parseArgs` prints the usage line and exits with
status 0. -/
theorem parseArgs_getopt_error_exits_zero (permute : Bool) :
    getoptAll permute ["-x"] = [⟨code '?', none⟩] ∧
    parseArgs (getoptAll permute ["-x"]) = .exited 0 (ARG_HELP ++ "\n") ∧
    parseArgs (getoptAll permute ["-o", "-p"]) = .exited 0 (ARG_HELP ++ "\n") ∧
    parseArgs (getoptAll permute ["-f"]) = .exited 0 (ARG_HELP ++ "\n") := by
  cases permute <;> decide

/-! ## Marshalling -/

theorem marshalRow_eq {float4 : Type} (im : EXRFile float4) (width i : Nat) :
    ∀ (n j : Nat) (buf : List float4), width - j = n →
      marshalRow im width i j buf = buf ++ (List.range' j n).map (fun j => im.getPixel4 j i) := by
  intro n
  induction n with
  | zero =>
    intro j buf h
    rw [marshalRow, if_neg (by omega)]
    simp
  | succ n ih =>
    intro j buf h
    rw [marshalRow, if_pos (by omega), ih (j + 1) _ (by omega), List.range'_succ]
    simp

theorem marshalRows_eq {float4 : Type} (im : EXRFile float4) (width height : Nat) :
    ∀ (n i : Nat) (buf : List float4), height - i = n →
      marshalRows im width height i buf =
        buf ++ (List.range' i n).flatMap (pixelRow im width) := by
  intro n
  induction n with
  | zero =>
    intro i buf h
    rw [marshalRows, if_neg (by omega)]
    simp
  | succ n ih =>
    intro i buf h
    rw [marshalRows, if_pos (by omega), ih (i + 1) _ (by omega), List.range'_succ,
      marshalRow_eq im width i width 0 buf (by omega)]
    simp [pixelRow]

theorem marshal_eq {float4 : Type} (im : EXRFile float4) :
    marshal im = (List.range' 0 im.getHeight).flatMap (pixelRow im im.getWidth) := by
  unfold marshal
  rw [marshalRows_eq im im.getWidth im.getHeight im.getHeight 0 [] (by omega)]
  simp

theorem pixelRow_length {float4 : Type} (im : EXRFile float4) (width i : Nat) :
    (pixelRow im width i).length = width := by
  simp [pixelRow]

theorem pixelRow_getElem? {float4 : Type} (im : EXRFile float4) (width i j : Nat)
    (hj : j < width) : (pixelRow im width i)[j]? = some (im.getPixel4 j i) := by
  simp [pixelRow, List.getElem?_range', hj]

theorem flatMap_rows_length {α : Type} (rows : Nat → List α) (w : Nat)
    (hlen : ∀ i, (rows i).length = w) :
    ∀ n s : Nat, ((List.range' s n).flatMap rows).length = n * w := by
  intro n
  induction n with
  | zero => intro s; simp
  | succ n ih =>
    intro s
    rw [List.range'_succ, List.flatMap_cons, List.length_append, hlen, ih]
    ring

theorem flatMap_rows_getElem? {α : Type} (rows : Nat → List α) (w : Nat)
    (hlen : ∀ i, (rows i).length = w) :
    ∀ n s i j : Nat, i < n → j < w →
      ((List.range' s n).flatMap rows)[i * w + j]? = (rows (s + i))[j]? := by
  intro n
  induction n with
  | zero => intro s i j hi; omega
  | succ n ih =>
    intro s i j hi hj
    rw [List.range'_succ, List.flatMap_cons]
    cases i with
    | zero =>
      rw [List.getElem?_append_left (by rw [hlen]; omega)]
      simp
    | succ i =>
      have hidx : (i + 1) * w + j = w + (i * w + j) := by ring
      rw [hidx, List.getElem?_append_right (by rw [hlen]; omega), hlen,
        Nat.add_sub_cancel_left, ih (s + 1) i j (by omega) hj]
      congr 2
      omega

/-- C6: the marshalling loops of `main` leave a buffer of exactly
`width * height` pixels, and for every row `i < height` and column
`j < width` its element at index `i * width + j` is `getPixel4(j, i)`. -/
theorem marshal_row_major {float4 : Type} (im : EXRFile float4) :
    (marshal im).length = im.getWidth * im.getHeight ∧
    ∀ i j : Nat, i < im.getHeight → j < im.getWidth →
      (marshal im)[i * im.getWidth + j]? = some (im.getPixel4 j i) := by
  rw [marshal_eq]
  refine ⟨?_, ?_⟩
  · rw [flatMap_rows_length _ im.getWidth (pixelRow_length im im.getWidth)]
    ring
  · intro i j hi hj
    rw [flatMap_rows_getElem? _ im.getWidth (pixelRow_length im im.getWidth) _ 0 i j hi hj,
      Nat.zero_add, pixelRow_getElem? im im.getWidth i j hj]

/-- Witness for C6: on the 2-by-3 sample image the buffer has 6 elements and
index `1 * 2 + 1` holds the pixel of column 1, row 1. -/
theorem marshal_row_major_witness :
    (marshal sampleImage).length = 2 * 3 ∧
      (marshal sampleImage)[1 * 2 + 1]? = some ((1, 1) : Nat × Nat) :=
  ⟨(marshal_row_major sampleImage).1,
   (marshal_row_major sampleImage).2 1 1 (by decide) (by decide)⟩

/-- C10 fails on the code: on the 2-wide, 3-high sample image the element at
index `i * height + j` for row `i = 1`, column `j = 0` is the pixel of column
1, row 1, not the pixel `getPixel4(0, 1)` pushed for `(i, j) = (1, 0)`; on the
last row the index `i * height + j` lies outside the buffer. -/
theorem marshal_index_not_height_based :
    (marshal sampleImage)[1 * sampleImage.getHeight + 0]? = some ((1, 1) : Nat × Nat) ∧
    (marshal sampleImage)[1 * sampleImage.getHeight + 0]? ≠ some (sampleImage.getPixel4 0 1) ∧
    (marshal sampleImage)[2 * sampleImage.getHeight + 0]? = none := by
  have h : marshal sampleImage = [(0, 0), (1, 0), (0, 1), (1, 1), (0, 2), (1, 2)] := by
    rw [marshal_eq]
    rfl
  rw [h]
  decide

/-! ## The kernel-call sequences of `main` -/

theorem toInt32_of_lt (n : Nat) (h : n < 2 ^ 31) : toInt32 (n : Int) = (n : Int) := by
  have h31 : (2 : Nat) ^ 31 = 2147483648 := by norm_num
  rw [h31] at h
  unfold toInt32
  omega

theorem outProcSize_imageOf {float4 : Type} (im : EXRFile float4)
    (hsz : im.getWidth * im.getHeight < 2 ^ 31) :
    outProcSize (imageOf im) = .ok (im.getWidth * im.getHeight) := by
  have hcast : (im.getWidth : Int) * (im.getHeight : Int) =
      ((im.getWidth * im.getHeight : Nat) : Int) := by push_cast; rfl
  have h31 : (2 : Nat) ^ 31 = 2147483648 := by norm_num
  rw [h31] at hsz
  have hsize : (imageOf im).sz = some ((im.getWidth * im.getHeight : Nat) : Int) := by
    unfold image_t.sz imageOf
    rw [hcast, if_pos ⟨by omega, by omega⟩]
  unfold outProcSize
  rw [hsize]
  simp only
  rw [if_pos (Int.ofNat_nonneg _), Int.toNat_ofNat]

theorem loadImage_some {float4 : Type} (readEXR : String → Option (EXRFile float4))
    (f : String) (im : EXRFile float4) (hread : readEXR f = some im)
    (hw : im.getWidth < 2 ^ 31) (hh : im.getHeight < 2 ^ 31) :
    loadImage readEXR (some f) =
      ([.cout ("Loaded file " ++ f ++ "\n"), .readEXR f, .cout "finished converting to float3\n"],
        some (imageOf im)) := by
  simp only [loadImage, hread, imageOf, toInt32_of_lt _ hw, toInt32_of_lt _ hh]

theorem loadImage_filter {float4 : Type} (readEXR : String → Option (EXRFile float4))
    (file_in : Option String) :
    (loadImage readEXR file_in).1.filter Event.isKernelOrWrite = [] := by
  cases file_in with
  | none => rfl
  | some f =>
    cases h : readEXR f <;> simp [loadImage, h, List.filter, Event.isKernelOrWrite]

theorem seriesStep_fixed : Binary32.fixed 3 seriesStep = "0.100" := by decide

theorem seriesStep_eq : seriesStep = Binary32.ofRat 1 10 := by decide

theorem map_refl_im_name (pfx : String) (i : Nat) :
    pfx ++ "_refl_" ++ Binary32.fixed 3 seriesStep ++ "_" ++ toString i ++ ".exr" =
      reflName pfx i := by
  simp only [seriesStep_fixed, reflName, String.append_assoc]

theorem map_refl_im_events {float4 : Type} (writeEXR : String → Bool) (im : image_t float4)
    (len : Nat) (pfx : String) (i : Nat) (hlen : outProcSize im = .ok len) :
    (map_refl_im writeEXR im pfx seriesStep i).2 =
      (if writeEXR (reflName pfx i) then none else some .thrown) ∧
    (map_refl_im writeEXR im pfx seriesStep i).1.filter Event.isKernelOrWrite =
      seriesEvents im len pfx i := by
  simp only [map_refl_im, hlen, map_refl_im_name, seriesEvents, List.filter,
    Event.isKernelOrWrite, seriesRoughness, and_self]

theorem irradiate_im_events {float4 : Type} (writeEXR : String → Bool) (im : image_t float4)
    (len : Nat) (pfx : String) (hlen : outProcSize im = .ok len) :
    (irradiate_im writeEXR im pfx).2 =
      (if writeEXR (pfx ++ "_diffuse.exr") then none else some .thrown) ∧
    (irradiate_im writeEXR im pfx).1.filter Event.isKernelOrWrite =
      [ .irradiate_ker im.im len im.width im.height,
        .write (pfx ++ "_diffuse.exr") 3 len im.width im.height ] := by
  simp only [irradiate_im, hlen, List.filter, Event.isKernelOrWrite, and_self]

theorem reflLoop_ok {float4 : Type} (writeEXR : String → Bool) (im : image_t float4)
    (len : Nat) (pfx : String) (count : Nat) (hlen : outProcSize im = .ok len)
    (hwrite : ∀ j, 1 ≤ j → j ≤ count → writeEXR (reflName pfx j) = true) :
    ∀ n i : Nat, 1 ≤ i → count + 1 - i = n →
      (reflLoop writeEXR im pfx seriesStep count i).2 = none ∧
      (reflLoop writeEXR im pfx seriesStep count i).1.filter Event.isKernelOrWrite =
        (List.range' i n).flatMap (seriesEvents im len pfx) := by
  intro n
  induction n with
  | zero =>
    intro i _ h
    rw [reflLoop, if_neg (by omega)]
    simp
  | succ n ih =>
    intro i hi h
    obtain ⟨h2, hfilter⟩ := ih (i + 1) (by omega) (by omega)
    obtain ⟨m2, mfilter⟩ := map_refl_im_events writeEXR im len pfx i hlen
    rw [hwrite i hi (by omega), if_pos rfl] at m2
    rw [reflLoop, if_pos (by omega), List.range'_succ, List.flatMap_cons]
    unfold Partial.andThen
    rw [m2]
    simp only [List.filter_append, mfilter, hfilter, h2, and_self]

theorem reflLoop_halt {float4 : Type} (writeEXR : String → Bool) (im : image_t float4)
    (pfx : String) (step : Binary32) (count i : Nat) (h : Halt) (hi : i ≤ count)
    (hlen : outProcSize im = .error h) :
    reflLoop writeEXR im pfx step count i = ([], some h) := by
  rw [reflLoop, if_pos hi]
  simp only [map_refl_im, hlen, Partial.andThen]

theorem reflLoop_write_fails {float4 : Type} (writeEXR : String → Bool) (im : image_t float4)
    (len : Nat) (pfx : String) (count i : Nat) (hi : i ≤ count)
    (hlen : outProcSize im = .ok len) (hwrite : writeEXR (reflName pfx i) = false) :
    (reflLoop writeEXR im pfx seriesStep count i).2 = some .thrown ∧
    (reflLoop writeEXR im pfx seriesStep count i).1.filter Event.isKernelOrWrite =
      seriesEvents im len pfx i := by
  obtain ⟨m2, mfilter⟩ := map_refl_im_events writeEXR im len pfx i hlen
  rw [hwrite] at m2
  have m3 : (map_refl_im writeEXR im pfx seriesStep i).2 = some .thrown := by simpa using m2
  rw [reflLoop, if_pos hi]
  unfold Partial.andThen
  rw [m3]
  exact ⟨m3, mfilter⟩

theorem dispatch_series {float4 : Type} (writeEXR : String → Bool) (imt : image_t float4)
    (len : Nat) (mode : Char) (pfx : String) (hlen : outProcSize imt = .ok len)
    (hmode : mode = 'r' ∨ mode = 'a')
    (hwrite : ∀ i ∈ List.range' 1 10, writeEXR (reflName pfx i) = true)
    (hdiffuse : mode = 'a' → writeEXR (pfx ++ "_diffuse.exr") = true) :
    (dispatch writeEXR imt mode pfx).2 = none ∧
    (dispatch writeEXR imt mode pfx).1.filter Event.isKernelOrWrite =
      (List.range' 1 10).flatMap (seriesEvents imt len pfx) ++
        (if mode = 'a' then
          [ .irradiate_ker imt.im len imt.width imt.height,
            .write (pfx ++ "_diffuse.exr") 3 len imt.width imt.height ]
         else []) := by
  have hw : ∀ j, 1 ≤ j → j ≤ 10 → writeEXR (reflName pfx j) = true := by
    intro j h1 h10
    exact hwrite j (List.mem_range'_1.mpr ⟨h1, by omega⟩)
  obtain ⟨l2, lfilter⟩ := reflLoop_ok writeEXR imt len pfx 10 hlen hw 10 1 (le_refl 1) rfl
  obtain ⟨i2, ifilter⟩ := irradiate_im_events writeEXR imt len pfx hlen
  rcases hmode with h | h <;> subst h
  · have e : dispatch writeEXR imt 'r' pfx = reflLoop writeEXR imt pfx seriesStep 10 1 := by
      unfold dispatch
      dsimp only
      rw [if_neg (by decide), if_pos rfl]
      rfl
    rw [e, if_neg (by decide)]
    exact ⟨l2, by simpa using lfilter⟩
  · have e : dispatch writeEXR imt 'a' pfx =
        (reflLoop writeEXR imt pfx seriesStep 10 1).andThen (irradiate_im writeEXR imt pfx) := by
      unfold dispatch
      dsimp only
      rw [if_neg (by decide), if_neg (by decide), if_neg (by decide), if_pos rfl]
      rfl
    rw [hdiffuse rfl, if_pos rfl] at i2
    rw [e, if_pos rfl]
    unfold Partial.andThen
    rw [l2]
    simp only [List.filter_append, lfilter, ifilter, i2, and_self]

theorem main_of_mainBody {float4 : Type} (disk : Disk float4)
    (rs : List GetoptResult) (a : Args) (pfx : String) (tr : List (Event float4))
    (hparse : parseArgs rs = .returned a) (hpfx : a.file_out_prefix = some pfx)
    (hbody : mainBody disk a.mode a.file_in pfx = (tr, none)) :
    main disk rs = .finished tr := by
  unfold main
  rw [hparse]
  simp only [hpfx, hbody]

theorem main_thrown_of_mainBody {float4 : Type} (disk : Disk float4)
    (rs : List GetoptResult) (a : Args) (pfx : String) (tr : List (Event float4))
    (hparse : parseArgs rs = .returned a) (hpfx : a.file_out_prefix = some pfx)
    (hbody : mainBody disk a.mode a.file_in pfx = (tr, some .thrown)) :
    main disk rs = .thrown tr := by
  unfold main
  rw [hparse]
  simp only [hpfx, hbody]

theorem main_series_trace {float4 : Type} (disk : Disk float4)
    (rs : List GetoptResult) (a : Args) (f pfx : String) (im : EXRFile float4)
    (hparse : parseArgs rs = .returned a) (hmode : a.mode = 'r' ∨ a.mode = 'a')
    (hf : a.file_in = some f) (hpfx : a.file_out_prefix = some pfx)
    (hread : disk.readEXR f = some im)
    (hw : im.getWidth < 2 ^ 31) (hh : im.getHeight < 2 ^ 31)
    (hsz : im.getWidth * im.getHeight < 2 ^ 31)
    (hwrite : ∀ i ∈ List.range' 1 10, disk.writeEXR (reflName pfx i) = true)
    (hdiffuse : a.mode = 'a' → disk.writeEXR (pfx ++ "_diffuse.exr") = true) :
    ∃ tr : List (Event float4),
      main disk rs = .finished tr ∧
      tr.filter Event.isKernelOrWrite =
        (List.range' 1 10).flatMap
          (seriesEvents (imageOf im) (im.getWidth * im.getHeight) pfx) ++
        (if a.mode = 'a' then
          [ .irradiate_ker (marshal im) (im.getWidth * im.getHeight)
              (im.getWidth : Int) (im.getHeight : Int),
            .write (pfx ++ "_diffuse.exr") 3 (im.getWidth * im.getHeight)
              (im.getWidth : Int) (im.getHeight : Int) ]
         else []) := by
  have hload := loadImage_some disk.readEXR f im hread hw hh
  obtain ⟨d2, dfilter⟩ := dispatch_series disk.writeEXR (imageOf im)
    (im.getWidth * im.getHeight) a.mode pfx (outProcSize_imageOf im hsz) hmode hwrite hdiffuse
  have hbody : mainBody disk a.mode a.file_in pfx =
      ((loadImage disk.readEXR (some f)).1 ++
        (dispatch disk.writeEXR (imageOf im) a.mode pfx).1, none) := by
    unfold mainBody
    rw [hf]
    simp only [hload, Partial.andThen, d2]
  refine ⟨_, main_of_mainBody disk rs a pfx _ hparse hpfx hbody, ?_⟩
  rw [List.filter_append, loadImage_filter, dfilter]
  simp [imageOf]

theorem string_append_left_cancel (p a b : String) (h : p ++ a = p ++ b) : a = b := by
  have h2 := congrArg String.data h
  simp only [String.data_append, List.append_cancel_left_eq] at h2
  exact String.ext h2

theorem reflName_nodup (pfx : String) : ((List.range' 1 10).map (reflName pfx)).Nodup := by
  have hs : ((List.range' 1 10).map
      (fun i => "_refl_" ++ ("0.100" ++ ("_" ++ (toString i ++ ".exr"))))).Nodup := by decide
  have hinj : Function.Injective (fun t : String => pfx ++ t) :=
    fun a b h => string_append_left_cancel pfx a b h
  have hmap := List.Nodup.map hinj hs
  simpa [List.map_map, Function.comp_def, reflName] using hmap

theorem seriesRoughness_values :
    ∀ i ∈ List.range' 1 10,
      Binary32.fixed 7 (seriesRoughness i) = decimalString 7 (i * 10 ^ 6) := by decide

theorem seriesRoughness_nearest :
    ∀ i ∈ List.range' 1 10, i ≠ 9 → seriesRoughness i = Binary32.ofRat i 10 := by decide

theorem seriesRoughness_nine :
    seriesRoughness 9 = ⟨15099495, -24⟩ ∧ Binary32.ofRat 9 10 = ⟨15099494, -24⟩ := by decide

theorem main_unreadable {float4 : Type} (disk : Disk float4)
    (rs : List GetoptResult) (f pfx : String) (mode : Char)
    (hparse : parseArgs rs = .returned ⟨mode, some f, some pfx⟩)
    (hread : disk.readEXR f = none) :
    main disk rs = .thrown [.cout ("Loaded file " ++ f ++ "\n"), .readEXR f] := by
  have hbody : mainBody disk mode (some f) pfx =
      ([.cout ("Loaded file " ++ f ++ "\n"), .readEXR f], some .thrown) := by
    simp only [mainBody, loadImage, hread]
  exact main_thrown_of_mainBody disk rs ⟨mode, some f, some pfx⟩ pfx _ hparse rfl hbody

theorem main_series_first_write_fails {float4 : Type} (disk : Disk float4)
    (rs : List GetoptResult) (f pfx : String) (im : EXRFile float4)
    (hparse : parseArgs rs = .returned ⟨'r', some f, some pfx⟩)
    (hread : disk.readEXR f = some im)
    (hw : im.getWidth < 2 ^ 31) (hh : im.getHeight < 2 ^ 31)
    (hsz : im.getWidth * im.getHeight < 2 ^ 31)
    (hwrite : disk.writeEXR (reflName pfx 1) = false) :
    ∃ tr : List (Event float4),
      main disk rs = .thrown tr ∧
      tr.filter Event.isKernelOrWrite =
        seriesEvents (imageOf im) (im.getWidth * im.getHeight) pfx 1 := by
  have hload := loadImage_some disk.readEXR f im hread hw hh
  obtain ⟨l2, lfilter⟩ := reflLoop_write_fails disk.writeEXR (imageOf im)
    (im.getWidth * im.getHeight) pfx 10 1 (by decide) (outProcSize_imageOf im hsz) hwrite
  have hdisp : dispatch disk.writeEXR (imageOf im) 'r' pfx =
      reflLoop disk.writeEXR (imageOf im) pfx seriesStep 10 1 := by
    unfold dispatch
    dsimp only
    rw [if_neg (by decide), if_pos rfl]
    rfl
  have hbody : mainBody disk 'r' (some f) pfx =
      ((loadImage disk.readEXR (some f)).1 ++
        (reflLoop disk.writeEXR (imageOf im) pfx seriesStep 10 1).1, some .thrown) := by
    unfold mainBody
    simp only [hload, Partial.andThen, hdisp, l2]
  refine ⟨_, main_thrown_of_mainBody disk rs ⟨'r', some f, some pfx⟩ pfx _ hparse rfl hbody, ?_⟩
  rw [List.filter_append, loadImage_filter, lfilter]
  rfl

/-- C5, as stated, fails. On the sample image the ninth reflectance call of
`-r -f in.exr -p out` gets the roughness 15099495 * 2^-24, which is neither
9/10 nor the `float` nearest to 9/10 (15099494 * 2^-24). On the image of 46341
by 46341 pixels the `int` product `width * height` of `image_t::sz` overflows
in the first `map_refl_im`, so the run is undefined before any kernel call.
With an input file that cannot be read the run ends in the reader's exception,
again before any kernel call; and when the first output file cannot be
written the run ends in the writer's exception after one kernel call. -/
theorem main_series_not_for_every_image :
    (∃ tr : List (Event (Nat × Nat)),
      main sampleDisk
        [⟨code 'r', none⟩, ⟨code 'f', some "in.exr"⟩, ⟨code 'p', some "out"⟩] = .finished tr ∧
      Event.map_reflectance_ker (marshal sampleImage) 6 2 3 ⟨15099495, -24⟩ ∈ tr) ∧
    (seriesRoughness 9).num * 10 ≠ 9 * (seriesRoughness 9).den ∧
    seriesRoughness 9 ≠ Binary32.ofRat 9 10 ∧
    main bigDisk
        [⟨code 'r', none⟩, ⟨code 'f', some "in.exr"⟩, ⟨code 'p', some "out"⟩] =
      .undefined [.cout "Loaded file in.exr\n", .readEXR "in.exr",
        .cout "finished converting to float3\n"] ∧
    main sampleDisk
        [⟨code 'r', none⟩, ⟨code 'f', some "missing.exr"⟩, ⟨code 'p', some "out"⟩] =
      .thrown [.cout "Loaded file missing.exr\n", .readEXR "missing.exr"] ∧
    (∃ tr : List (Event (Nat × Nat)),
      main fullDisk
        [⟨code 'r', none⟩, ⟨code 'f', some "in.exr"⟩, ⟨code 'p', some "out"⟩] = .thrown tr ∧
      tr.filter Event.isKernelOrWrite = seriesEvents (imageOf sampleImage) 6 "out" 1) := by
  refine ⟨?_, by decide, by decide, ?_,
    main_unreadable sampleDisk _ "missing.exr" "out" 'r' (by decide) rfl,
    main_series_first_write_fails fullDisk _ "in.exr" "out" sampleImage (by decide) rfl
      (by decide) (by decide) (by decide) rfl⟩
  · obtain ⟨tr, hmain, hfilter⟩ := main_series_trace sampleDisk
      [⟨code 'r', none⟩, ⟨code 'f', some "in.exr"⟩, ⟨code 'p', some "out"⟩]
      ⟨'r', some "in.exr", some "out"⟩ "in.exr" "out" sampleImage (by decide) (Or.inl rfl)
      rfl rfl rfl (by decide) (by decide) (by decide) (fun _ _ => rfl) (fun _ => rfl)
    refine ⟨tr, hmain, ?_⟩
    have hmem : Event.map_reflectance_ker (marshal sampleImage) 6 2 3 ⟨15099495, -24⟩ ∈
        tr.filter Event.isKernelOrWrite := by
      rw [hfilter]
      apply List.mem_append_left
      rw [List.mem_flatMap]
      refine ⟨9, by decide, ?_⟩
      simp [seriesEvents, imageOf, sampleImage, seriesRoughness_nine.1]
    exact (List.mem_filter.mp hmem).1
  · have hload : loadImage bigDisk.readEXR (some "in.exr") =
        ([.cout ("Loaded file " ++ "in.exr" ++ "\n"), .readEXR "in.exr",
          .cout "finished converting to float3\n"],
          some ⟨marshal bigImage, toInt32 46341, toInt32 46341⟩) := rfl
    have hsize : outProcSize (⟨marshal bigImage, toInt32 46341, toInt32 46341⟩ :
        image_t (Nat × Nat)) = .error .undefined := by
      unfold outProcSize image_t.sz
      simp only
      rw [if_neg (by decide)]
    have hparse : parseArgs
        [⟨code 'r', none⟩, ⟨code 'f', some "in.exr"⟩, ⟨code 'p', some "out"⟩] =
        .returned ⟨'r', some "in.exr", some "out"⟩ := by decide
    have hdisp : dispatch bigDisk.writeEXR (⟨marshal bigImage, toInt32 46341, toInt32 46341⟩ :
        image_t (Nat × Nat)) 'r' "out" = ([], some .undefined) := by
      unfold dispatch
      dsimp only
      rw [if_neg (by decide), if_pos rfl]
      exact reflLoop_halt _ _ _ _ 10 1 .undefined (by decide) hsize
    unfold main
    rw [hparse]
    simp only [mainBody, hload, hdisp, Partial.andThen]
    rfl

/-- C5, amended: in the modes 'r' and 'a', when the input file is read, the
image's width, height and pixel count are `int` values and the writes of the
output files return, `main` runs to its end, and its kernel calls and file
writes are, in this order: for i = 1, 2, ..., 10 one call of the reflectance
kernel on the marshalled input image with roughness the `float` product of
`step` and `i`, followed by one write of `<prefix>_refl_0.100_<i>.exr`; then,
in mode 'a' only, the irradiance call and its one write. The step is the
`float` nearest to 1/10 and prints as 0.100 with three decimals; the roughness
is the `float` nearest to i/10 for every i but 9, where it is the next `float`
above, and is i/10 to seven decimals for every i; the ten file names are
pairwise distinct. -/
theorem main_reflectance_series {float4 : Type} (disk : Disk float4)
    (rs : List GetoptResult) (a : Args) (f pfx : String) (im : EXRFile float4)
    (hparse : parseArgs rs = .returned a) (hmode : a.mode = 'r' ∨ a.mode = 'a')
    (hf : a.file_in = some f) (hpfx : a.file_out_prefix = some pfx)
    (hread : disk.readEXR f = some im)
    (hw : im.getWidth < 2 ^ 31) (hh : im.getHeight < 2 ^ 31)
    (hsz : im.getWidth * im.getHeight < 2 ^ 31)
    (hwrite : ∀ i ∈ List.range' 1 10, disk.writeEXR (reflName pfx i) = true)
    (hdiffuse : a.mode = 'a' → disk.writeEXR (pfx ++ "_diffuse.exr") = true) :
    ∃ tr : List (Event float4),
      main disk rs = .finished tr ∧
      tr.filter Event.isKernelOrWrite =
        (List.range' 1 10).flatMap
          (seriesEvents (imageOf im) (im.getWidth * im.getHeight) pfx) ++
        (if a.mode = 'a' then
          [ .irradiate_ker (marshal im) (im.getWidth * im.getHeight)
              (im.getWidth : Int) (im.getHeight : Int),
            .write (pfx ++ "_diffuse.exr") 3 (im.getWidth * im.getHeight)
              (im.getWidth : Int) (im.getHeight : Int) ]
         else []) ∧
      seriesStep = Binary32.ofRat 1 10 ∧ Binary32.fixed 3 seriesStep = "0.100" ∧
      (∀ i ∈ List.range' 1 10, i ≠ 9 → seriesRoughness i = Binary32.ofRat i 10) ∧
      (seriesRoughness 9 = ⟨15099495, -24⟩ ∧ Binary32.ofRat 9 10 = ⟨15099494, -24⟩) ∧
      (∀ i ∈ List.range' 1 10,
        Binary32.fixed 7 (seriesRoughness i) = decimalString 7 (i * 10 ^ 6)) ∧
      ((List.range' 1 10).map (reflName pfx)).Nodup := by
  obtain ⟨tr, hmain, hfilter⟩ := main_series_trace disk rs a f pfx im hparse hmode hf hpfx
    hread hw hh hsz hwrite hdiffuse
  exact ⟨tr, hmain, hfilter, seriesStep_eq, seriesStep_fixed,
    seriesRoughness_nearest, seriesRoughness_nine, seriesRoughness_values, reflName_nodup pfx⟩

/-- Witness for C5 (amended): the command line `-r -f in.exr -p out` on the
sample image, with every file writable. -/
theorem main_reflectance_series_witness :
    ∃ tr : List (Event (Nat × Nat)),
      main sampleDisk
        [⟨code 'r', none⟩, ⟨code 'f', some "in.exr"⟩, ⟨code 'p', some "out"⟩] = .finished tr ∧
      tr.filter Event.isKernelOrWrite =
        (List.range' 1 10).flatMap
          (seriesEvents (imageOf sampleImage) (sampleImage.getWidth * sampleImage.getHeight)
            "out") ++
        (if ('r' : Char) = 'a' then
          [ .irradiate_ker (marshal sampleImage) (sampleImage.getWidth * sampleImage.getHeight)
              (sampleImage.getWidth : Int) (sampleImage.getHeight : Int),
            .write ("out" ++ "_diffuse.exr") 3 (sampleImage.getWidth * sampleImage.getHeight)
              (sampleImage.getWidth : Int) (sampleImage.getHeight : Int) ]
         else []) ∧
      seriesStep = Binary32.ofRat 1 10 ∧ Binary32.fixed 3 seriesStep = "0.100" ∧
      (∀ i ∈ List.range' 1 10, i ≠ 9 → seriesRoughness i = Binary32.ofRat i 10) ∧
      (seriesRoughness 9 = ⟨15099495, -24⟩ ∧ Binary32.ofRat 9 10 = ⟨15099494, -24⟩) ∧
      (∀ i ∈ List.range' 1 10,
        Binary32.fixed 7 (seriesRoughness i) = decimalString 7 (i * 10 ^ 6)) ∧
      ((List.range' 1 10).map (reflName "out")).Nodup :=
  main_reflectance_series sampleDisk
    [⟨code 'r', none⟩, ⟨code 'f', some "in.exr"⟩, ⟨code 'p', some "out"⟩]
    ⟨'r', some "in.exr", some "out"⟩ "in.exr" "out" sampleImage (by decide) (Or.inl rfl) rfl
    rfl rfl (by decide) (by decide) (by decide) (fun _ _ => rfl) (fun _ => rfl)

end Cudareflect

namespace Shaders

/-! ## The assembled shader source -/

theorem foldl_define (flags : List String) :
    ∀ s : String, flags.foldl (fun s flag => s ++ "#define " ++ flag ++ "\r\n") s =
      s ++ defineLines flags := by
  induction flags with
  | nil => intro s; simp [defineLines]
  | cons flag flags ih =>
    intro s
    rw [List.foldl_cons, ih, defineLines]
    simp only [String.append_assoc]

theorem shaderSrc_eq (apple : Bool) (Nlights Nmaterials : Nat) (defineflags : List String)
    (contents : String) :
    shaderSrc apple Nlights Nmaterials defineflags contents =
      expectedSource apple Nlights Nmaterials defineflags contents := by
  unfold shaderSrc expectedSource
  simp only [foldl_define]
  simp only [String.append_assoc, String.empty_append]
  rfl

theorem join_cons (x : String) (xs : List String) :
    String.join (x :: xs) = x ++ String.join xs := by
  apply String.ext
  simp [String.join_eq]

theorem defineLines_eq_join (flags : List String) :
    defineLines flags = String.join (flags.map (fun flag => "#define " ++ flag ++ "\r\n")) := by
  induction flags with
  | nil => rfl
  | cons flag flags ih => rw [defineLines, List.map_cons, join_cons, ih]

theorem sources_append (a b : List GLCall) : sources (a ++ b) = sources a ++ sources b := by
  induction a with
  | nil => rfl
  | cons c a ih => cases c <;> simp [sources, ih]

theorem createShaders_trace (drv : Driver) (src : String) (shaderType : Int)
    (file : String) (tr : List GLCall) :
    ∃ rest, (createShaders drv src shaderType file tr).1 =
        tr ++ (.glCreateShader shaderType :: .glShaderSource (drv.newHandle tr) src ::
          .glCompileShader (drv.newHandle tr) :: rest) ∧
      sources rest = [] ∧ rest.filter GLCall.isCompilation = [] := by
  unfold createShaders
  dsimp only
  split_ifs
  · refine ⟨[.glGetShaderiv (drv.newHandle tr) "GL_COMPILE_STATUS",
      .glGetShaderiv (drv.newHandle tr) "GL_INFO_LOG_LENGTH",
      .glGetShaderInfoLog (drv.newHandle tr),
      .cerr (drv.infoLog (tr ++ [.glCreateShader shaderType,
        .glShaderSource (drv.newHandle tr) src, .glCompileShader (drv.newHandle tr),
        .glGetShaderiv (drv.newHandle tr) "GL_COMPILE_STATUS"] ++
        [.glGetShaderiv (drv.newHandle tr) "GL_INFO_LOG_LENGTH",
          .glGetShaderInfoLog (drv.newHandle tr)])),
      .cerr "\nGL Compile error\n", .cerr (src ++ "\n")], ?_, rfl, rfl⟩
    simp
  · refine ⟨[.glGetShaderiv (drv.newHandle tr) "GL_COMPILE_STATUS"], ?_, rfl, rfl⟩
    simp

theorem ite_ne_nul (c : Prop) [Decidable c] (a b : Char) (ha : a ≠ Char.ofNat 0)
    (hb : b ≠ Char.ofNat 0) : (if c then a else b) ≠ Char.ofNat 0 := by
  split <;> assumption

theorem digitChar_ne_nul (d : Nat) : Nat.digitChar d ≠ Char.ofNat 0 := by
  unfold Nat.digitChar
  repeat' (first | apply ite_ne_nul | decide)

theorem toDigitsCore_ne_nul (fuel : Nat) :
    ∀ (n : Nat) (ds : List Char), (∀ c ∈ ds, c ≠ Char.ofNat 0) →
      ∀ c ∈ Nat.toDigitsCore 10 fuel n ds, c ≠ Char.ofNat 0 := by
  induction fuel with
  | zero =>
    intro n ds hds c hc
    exact hds c hc
  | succ fuel ih =>
    intro n ds hds c hc
    have hcons : ∀ x ∈ Nat.digitChar (n % 10) :: ds, x ≠ Char.ofNat 0 := by
      intro x hx
      rcases List.mem_cons.mp hx with rfl | hx
      · exact digitChar_ne_nul _
      · exact hds x hx
    unfold Nat.toDigitsCore at hc
    dsimp only at hc
    split_ifs at hc
    · exact hcons c hc
    · exact ih _ _ hcons c hc

theorem nulFree_toString (n : Nat) : NulFree (toString n) := by
  intro c hc
  exact toDigitsCore_ne_nul (n + 1) n [] (fun x hx => by simp at hx) c hc

theorem nulFree_append {a b : String} (ha : NulFree a) (hb : NulFree b) : NulFree (a ++ b) := by
  intro c hc
  rw [String.data_append, List.mem_append] at hc
  rcases hc with h | h
  · exact ha c h
  · exact hb c h

theorem cstr_of_nulFree {s : String} (h : NulFree s) : cstr s = s := by
  unfold cstr
  apply String.ext
  simp only
  rw [List.takeWhile_eq_self_iff]
  intro c hc
  simpa using h c hc

theorem nulFree_defineLines (flags : List String) (h : ∀ flag ∈ flags, NulFree flag) :
    NulFree (defineLines flags) := by
  induction flags with
  | nil => intro c hc; simp [defineLines] at hc
  | cons flag flags ih =>
    rw [defineLines]
    refine nulFree_append (nulFree_append (nulFree_append ?_ ?_) ?_) ?_
    · unfold NulFree; decide
    · exact h flag (List.mem_cons_self flag flags)
    · unfold NulFree; decide
    · exact ih (fun x hx => h x (List.mem_cons_of_mem flag hx))

theorem nulFree_expectedSource (apple : Bool) (Nlights Nmaterials : Nat)
    (defineflags : List String) (contents : String)
    (hflags : ∀ flag ∈ defineflags, NulFree flag) (hcontents : NulFree contents) :
    NulFree (expectedSource apple Nlights Nmaterials defineflags contents) := by
  have hv : NulFree (GLSL_VERSION apple) := by
    cases apple <;> (unfold NulFree; decide)
  unfold expectedSource
  refine nulFree_append (nulFree_append (nulFree_append ?_ hv) ?_)
    (nulFree_append ?_ (nulFree_append (nulFree_defineLines defineflags hflags)
      (nulFree_append (nulFree_append (nulFree_append ?_ (nulFree_toString Nlights)) ?_)
        (nulFree_append (nulFree_append (nulFree_append ?_ (nulFree_toString Nmaterials)) ?_)
          hcontents))))
  all_goals (unfold NulFree; decide)

/-- C8, as stated, fails: for the readable file `nul.glsl`, whose contents are
`a`, NUL, `b`, the text `glShaderSource` receives ends after the `a`; it is
not the generated lines followed by the unmodified file contents. -/
theorem createShaderFile_source_cut_at_nul :
    nulFs "nul.glsl" = some (String.mk ['a', Char.ofNat 0, 'b']) ∧
    sources (createShaderFile nulFs false sampleDriver "nul.glsl" 35633 1 1 [] []).1 =
      [expectedSource false 1 1 [] "a"] ∧
    expectedSource false 1 1 [] "a" ≠
      expectedSource false 1 1 [] (String.mk ['a', Char.ofNat 0, 'b']) := by
  decide

/-- C8, amended: for a file that can be opened, `createShaderFile` creates a
shader object and hands `glShaderSource` the text made of the version
directive line, the extension directive line, one `#define <flag>` line per
flag in the given order, the `const int Nlights=<Nlights>;` line, the
`const int Nmaterials=<Nmaterials>;` line, each ended by `\r\n`, followed by
the file contents, cut at its first NUL character; when no flag and not the
file contains a NUL character this is exactly that text, with the file
contents unmodified; then it compiles that shader. -/
theorem createShaderFile_source (fs : String → Option String) (apple : Bool) (drv : Driver)
    (file : String) (shaderType : Int) (Nlights Nmaterials : Nat) (defineflags : List String)
    (tr : List GLCall) (contents : String) (hopen : fs file = some contents) :
    (∃ rest, (createShaderFile fs apple drv file shaderType Nlights Nmaterials defineflags tr).1 =
      tr ++ (.glCreateShader shaderType ::
        .glShaderSource (drv.newHandle tr)
          (cstr (expectedSource apple Nlights Nmaterials defineflags contents)) ::
        .glCompileShader (drv.newHandle tr) :: rest)) ∧
    sources (createShaderFile fs apple drv file shaderType Nlights Nmaterials defineflags tr).1 =
      sources tr ++ [cstr (expectedSource apple Nlights Nmaterials defineflags contents)] ∧
    ((∀ flag ∈ defineflags, NulFree flag) → NulFree contents →
      cstr (expectedSource apple Nlights Nmaterials defineflags contents) =
        expectedSource apple Nlights Nmaterials defineflags contents) ∧
    expectedSource apple Nlights Nmaterials defineflags contents =
      "#version " ++ (if apple then "410" else "130") ++ "\r\n" ++
      ("#extension GL_ARB_uniform_buffer_object : enable\r\n" ++
      (String.join (defineflags.map (fun flag => "#define " ++ flag ++ "\r\n")) ++
      ("const int Nlights=" ++ toString Nlights ++ ";\r\n" ++
      ("const int Nmaterials=" ++ toString Nmaterials ++ ";\r\n" ++ contents)))) := by
  obtain ⟨rest, hrest, hsrc, _⟩ := createShaders_trace drv
    (cstr (shaderSrc apple Nlights Nmaterials defineflags contents)) shaderType file tr
  have hfile : createShaderFile fs apple drv file shaderType Nlights Nmaterials defineflags tr =
      createShaders drv (cstr (shaderSrc apple Nlights Nmaterials defineflags contents))
        shaderType file tr := by
    unfold createShaderFile
    rw [hopen]
  rw [hfile, hrest, shaderSrc_eq]
  refine ⟨⟨rest, rfl⟩, ?_, ?_, ?_⟩
  · rw [sources_append]
    simp [sources, hsrc]
  · intro hflags hcontents
    exact cstr_of_nulFree
      (nulFree_expectedSource apple Nlights Nmaterials defineflags contents hflags hcontents)
  · unfold expectedSource GLSL_VERSION
    rw [defineLines_eq_join]

/-- Witness for C8 (amended): the file `a.glsl` of the sample file system,
with one flag, two lights and three materials; nothing contains a NUL. -/
theorem createShaderFile_source_witness :
    (∃ rest, (createShaderFile sampleFs false sampleDriver "a.glsl" 35633 2 3 ["NORMAL"] []).1 =
      [] ++ (.glCreateShader 35633 ::
        .glShaderSource (sampleDriver.newHandle [])
          (cstr (expectedSource false 2 3 ["NORMAL"] "void main();")) ::
        .glCompileShader (sampleDriver.newHandle []) :: rest)) ∧
    sources (createShaderFile sampleFs false sampleDriver "a.glsl" 35633 2 3 ["NORMAL"] []).1 =
      sources [] ++ [cstr (expectedSource false 2 3 ["NORMAL"] "void main();")] ∧
    cstr (expectedSource false 2 3 ["NORMAL"] "void main();") =
      expectedSource false 2 3 ["NORMAL"] "void main();" ∧
    expectedSource false 2 3 ["NORMAL"] "void main();" =
      "#version " ++ (if false then "410" else "130") ++ "\r\n" ++
      ("#extension GL_ARB_uniform_buffer_object : enable\r\n" ++
      (String.join (["NORMAL"].map (fun flag => "#define " ++ flag ++ "\r\n")) ++
      ("const int Nlights=" ++ toString 2 ++ ";\r\n" ++
      ("const int Nmaterials=" ++ toString 3 ++ ";\r\n" ++ "void main();")))) :=
  have h := createShaderFile_source sampleFs false sampleDriver "a.glsl" 35633 2 3 ["NORMAL"] []
    "void main();" (by decide)
  ⟨h.1, h.2.1, h.2.2.1 (by unfold NulFree; decide) (by unfold NulFree; decide), h.2.2.2⟩

/-! ## Missing shader files -/

theorem createShaders_error (drv : Driver) (src : String) (shaderType : Int)
    (file : String) (tr : List GLCall) (v : Int)
    (h : (createShaders drv src shaderType file tr).2 = .error v) : v = 1 := by
  unfold createShaders at h
  dsimp only at h
  split_ifs at h
  simp only [Except.error.injEq] at h
  exact h.symm

theorem filter_isCompilation_createShaders (drv : Driver) (src : String) (shaderType : Int)
    (file : String) (tr : List GLCall) :
    ((createShaders drv src shaderType file tr).1.filter GLCall.isCompilation).length =
      (tr.filter GLCall.isCompilation).length + 3 ∧
    sources (createShaders drv src shaderType file tr).1 = sources tr ++ [src] := by
  obtain ⟨rest, hrest, hsrc, hcomp⟩ := createShaders_trace drv src shaderType file tr
  rw [hrest]
  constructor
  · rw [List.filter_append]
    simp [List.filter, GLCall.isCompilation, hcomp]
  · rw [sources_append]
    simp [sources, hsrc]

theorem compileLoop_sources (fs : String → Option String) (apple : Bool) (drv : Driver)
    (mainShader Nlights NMaterials : Nat) (defineflags : List String)
    (shaders : List (String × Int)) :
    ∀ (compiled : List Nat) (tr : List GLCall),
      (∃ L, sources (compileLoop fs apple drv mainShader Nlights NMaterials defineflags
            shaders compiled tr).1 = sources tr ++ L ∧
          L <+: (openedBefore fs shaders).filterMap
            (sourceOf fs apple Nlights NMaterials defineflags) ∧
          ((compileLoop fs apple drv mainShader Nlights NMaterials defineflags
            shaders compiled tr).1.filter GLCall.isCompilation).length =
            (tr.filter GLCall.isCompilation).length + 3 * L.length) ∧
      ((∃ sh ∈ shaders, fs sh.1 = none) →
        (compileLoop fs apple drv mainShader Nlights NMaterials defineflags
          shaders compiled tr).2 = .error 1) := by
  induction shaders with
  | nil =>
    intro compiled tr
    refine ⟨⟨[], by simp [compileLoop], List.nil_prefix, by simp [compileLoop]⟩, ?_⟩
    rintro ⟨sh, hsh, _⟩
    simp at hsh
  | cons sh rest ih =>
    intro compiled tr
    cases hfs : fs sh.1 with
    | none =>
      have hloop : compileLoop fs apple drv mainShader Nlights NMaterials defineflags
          (sh :: rest) compiled tr = (tr, .error 1) := by
        simp only [compileLoop, createShaderFile, hfs]
      rw [hloop]
      exact ⟨⟨[], by simp, List.nil_prefix, by simp⟩, fun _ => rfl⟩
    | some contents =>
      have hfile : createShaderFile fs apple drv sh.1 sh.2 Nlights NMaterials defineflags tr =
          createShaders drv (cstr (shaderSrc apple Nlights NMaterials defineflags contents))
            sh.2 sh.1 tr := by
        simp only [createShaderFile, hfs]
      obtain ⟨hlen, hsrc⟩ := filter_isCompilation_createShaders drv
        (cstr (shaderSrc apple Nlights NMaterials defineflags contents)) sh.2 sh.1 tr
      have hopened : (openedBefore fs (sh :: rest)).filterMap
          (sourceOf fs apple Nlights NMaterials defineflags) =
          cstr (shaderSrc apple Nlights NMaterials defineflags contents) ::
            (openedBefore fs rest).filterMap
              (sourceOf fs apple Nlights NMaterials defineflags) := by
        simp [openedBefore, List.takeWhile_cons, hfs, sourceOf]
      rcases hcs : createShaders drv
        (cstr (shaderSrc apple Nlights NMaterials defineflags contents)) sh.2 sh.1 tr with ⟨tr1, res⟩
      rw [hcs] at hlen hsrc
      simp only at hlen hsrc
      cases res with
      | error v =>
        have hv : v = 1 := createShaders_error drv _ sh.2 sh.1 tr v (by rw [hcs])
        subst hv
        have hloop : compileLoop fs apple drv mainShader Nlights NMaterials defineflags
            (sh :: rest) compiled tr = (tr1, .error 1) := by
          simp only [compileLoop, hfile, hcs]
        rw [hloop, hopened]
        refine ⟨⟨[cstr (shaderSrc apple Nlights NMaterials defineflags contents)], hsrc, ?_, ?_⟩,
          fun _ => rfl⟩
        · exact List.cons_prefix_cons.mpr ⟨rfl, List.nil_prefix⟩
        · simpa using hlen
      | ok newshader =>
        have hloop : compileLoop fs apple drv mainShader Nlights NMaterials defineflags
            (sh :: rest) compiled tr =
            compileLoop fs apple drv mainShader Nlights NMaterials defineflags rest
              (compiled ++ [newshader]) (tr1 ++ [.glAttachShader mainShader newshader]) := by
          simp only [compileLoop, hfile, hcs]
        obtain ⟨⟨L, hL, hpre, hcount⟩, herr⟩ :=
          ih (compiled ++ [newshader]) (tr1 ++ [.glAttachShader mainShader newshader])
        rw [hloop, hopened]
        refine ⟨⟨cstr (shaderSrc apple Nlights NMaterials defineflags contents) :: L, ?_, ?_, ?_⟩,
          ?_⟩
        · rw [hL, sources_append, hsrc]
          simp [sources]
        · exact List.cons_prefix_cons.mpr ⟨rfl, hpre⟩
        · rw [hcount, List.filter_append, List.length_append, hlen]
          simp [List.filter, GLCall.isCompilation]
          ring
        · rintro ⟨x, hx, hxfs⟩
          rcases List.mem_cons.mp hx with rfl | hx
          · rw [hfs] at hxfs
            simp at hxfs
          · exact herr ⟨x, hx, hxfs⟩

/-- C9, as stated, fails: with the openable `a.glsl` listed before a file
that cannot be opened, the failure is raised only after `glCreateShader`,
`glShaderSource` and `glCompileShader` have been called for `a.glsl`. -/
theorem compileAndLinkShader_compiles_before_missing_file :
    sampleFs "missing.glsl" = none ∧
    (compileAndLinkShader sampleFs false sampleDriver
      [("a.glsl", 35633), ("missing.glsl", 35632)] 1 1 []).2 = .error 1 ∧
    (compileAndLinkShader sampleFs false sampleDriver
      [("a.glsl", 35633), ("missing.glsl", 35632)] 1 1 []).1.filter GLCall.isCompilation =
      [.glCreateShader 35633,
       .glShaderSource 1 (expectedSource false 1 1 [] "void main();"),
       .glCompileShader 1] := by
  refine ⟨by decide, rfl, by decide⟩

/-- C9, amended: when the list contains a file that cannot be opened,
`compileAndLinkShader` raises a failure (the thrown value 1); the shader
sources compiled before it are those of files that precede the first
unopenable file of the list, in list order, with three compilation calls
(`glCreateShader`, `glShaderSource`, `glCompileShader`) for each; so no
compilation call at all has been made when the first file of the list is the
one that cannot be opened. -/
theorem compileAndLinkShader_missing_file (fs : String → Option String) (apple : Bool)
    (drv : Driver) (shaders : List (String × Int)) (Nlights NMaterials : Nat)
    (defineflags : List String) (hmiss : ∃ sh ∈ shaders, fs sh.1 = none) :
    (compileAndLinkShader fs apple drv shaders Nlights NMaterials defineflags).2 = .error 1 ∧
    sources (compileAndLinkShader fs apple drv shaders Nlights NMaterials defineflags).1 <+:
      (openedBefore fs shaders).filterMap (sourceOf fs apple Nlights NMaterials defineflags) ∧
    ((compileAndLinkShader fs apple drv shaders Nlights NMaterials defineflags).1.filter
      GLCall.isCompilation).length =
      3 * (sources (compileAndLinkShader fs apple drv shaders Nlights NMaterials
        defineflags).1).length ∧
    ((∃ sh, shaders.head? = some sh ∧ fs sh.1 = none) →
      (compileAndLinkShader fs apple drv shaders Nlights NMaterials defineflags).1.filter
        GLCall.isCompilation = []) := by
  obtain ⟨⟨L, hL, hpre, hcount⟩, herr⟩ := compileLoop_sources fs apple drv (drv.newHandle [])
    Nlights NMaterials defineflags shaders [] [.glCreateProgram]
  have herr1 := herr hmiss
  have hres : compileAndLinkShader fs apple drv shaders Nlights NMaterials defineflags =
      ((compileLoop fs apple drv (drv.newHandle []) Nlights NMaterials defineflags shaders []
        [.glCreateProgram]).1, .error 1) := by
    unfold compileAndLinkShader
    dsimp only
    rcases hc : compileLoop fs apple drv (drv.newHandle []) Nlights NMaterials defineflags
      shaders [] [.glCreateProgram] with ⟨tr, res⟩
    rw [hc] at herr1
    simp only at herr1
    subst herr1
    rfl
  rw [hres]
  simp only
  have hL2 : sources (compileLoop fs apple drv (drv.newHandle []) Nlights NMaterials defineflags
      shaders [] [.glCreateProgram]).1 = L := by
    rw [hL]
    simp [sources]
  have hcount2 : ((compileLoop fs apple drv (drv.newHandle []) Nlights NMaterials defineflags
      shaders [] [.glCreateProgram]).1.filter GLCall.isCompilation).length = 3 * L.length := by
    rw [hcount]
    simp [List.filter, GLCall.isCompilation]
  refine ⟨trivial, ?_, ?_, ?_⟩
  · rw [hL2]
    exact hpre
  · rw [hL2, hcount2]
  · rintro ⟨sh, hhead, hfs⟩
    have hnil : (openedBefore fs shaders).filterMap
        (sourceOf fs apple Nlights NMaterials defineflags) = [] := by
      cases shaders with
      | nil => simp at hhead
      | cons x rest =>
        simp only [List.head?_cons, Option.some.injEq] at hhead
        subst hhead
        simp [openedBefore, List.takeWhile_cons, hfs]
    rw [hnil] at hpre
    have hLnil : L = [] := List.prefix_nil.mp hpre
    rw [hLnil] at hcount2
    exact List.length_eq_zero.mp (by simpa using hcount2)

/-- Witness for C9 (amended): the one-file list whose file cannot be opened. -/
theorem compileAndLinkShader_missing_file_witness :
    (compileAndLinkShader sampleFs false sampleDriver [("missing.glsl", 35632)] 1 1 []).2 =
      .error 1 ∧
    sources (compileAndLinkShader sampleFs false sampleDriver
      [("missing.glsl", 35632)] 1 1 []).1 <+:
      (openedBefore sampleFs [("missing.glsl", 35632)]).filterMap (sourceOf sampleFs false 1 1 []) ∧
    ((compileAndLinkShader sampleFs false sampleDriver
      [("missing.glsl", 35632)] 1 1 []).1.filter GLCall.isCompilation).length =
      3 * (sources (compileAndLinkShader sampleFs false sampleDriver
        [("missing.glsl", 35632)] 1 1 []).1).length ∧
    ((∃ sh, [(("missing.glsl", 35632) : String × Int)].head? = some sh ∧ sampleFs sh.1 = none) →
      (compileAndLinkShader sampleFs false sampleDriver
        [("missing.glsl", 35632)] 1 1 []).1.filter GLCall.isCompilation = []) :=
  compileAndLinkShader_missing_file sampleFs false sampleDriver [("missing.glsl", 35632)] 1 1 []
    ⟨("missing.glsl", 35632), List.mem_singleton.mpr rfl, by decide⟩

end Shaders
